import Mathlib

/-!
Shallow embedding of the MelX-Academic repository (React/TypeScript).

The embedded code comes from:
* `types.ts` (src/unnamed/part_003): the data model;
* `constants.ts` (src/unnamed/part_002): the grade scales and `getPoint`;
* `App.tsx` (src/unnamed/part_000): `calculateSemesterGPA`, the `cgpa`
  aggregate, `chartData`, and the state-updating handlers;
* `src/components/CourseList.tsx`: course creation/editing handlers;
* `src/services/geminiService.ts`: `parseTranscriptImage`,
  `findStudyResources`, `generateAcademicStrategy`.

JavaScript numbers are modelled as rationals (`ℚ`); `toFixed(2)` followed by
`parseFloat` is modelled as exact rounding to two decimal places (`round2`).
External effects (the Gemini API, the URL parser, `Date.now()`) are modelled
as explicit parameters describing the outcome of the external call; a thrown
JavaScript exception is modelled as `Except.error`.
-/

/-- CalculationMode from types.ts: the two-valued scale flag. -/
inductive CalculationMode where
  | Standard4
  | Standard5
deriving DecidableEq, Repr

/-- Course from types.ts (the optional gradePoint field is never written by the
embedded code and is omitted). -/
structure Course where
  id : String
  code : String
  title : String
  credits : ℚ
  grade : String
deriving DecidableEq, Repr

/-- Semester from types.ts. -/
structure Semester where
  id : String
  name : String
  courses : List Course
  gpa : ℚ
deriving DecidableEq, Repr

/-- GradeScaleItem from types.ts (minScore/maxScore are unused by the code). -/
structure GradeScaleItem where
  grade : String
  point : ℚ
deriving DecidableEq, Repr

/-- StudyResource from types.ts. -/
structure StudyResource where
  title : String
  uri : String
  source : String
deriving DecidableEq, Repr

/-- One entry of the strategicPlan array of AIAnalysisResult. -/
structure PlanStep where
  step : String
  details : String
deriving DecidableEq, Repr

/-- AIAnalysisResult from types.ts; sentiment is kept as a string as in the
TypeScript union type. -/
structure AIAnalysisResult where
  summary : String
  recommendations : List String
  projectedGPA : String
  sentiment : String
  strategicPlan : List PlanStep
  careerPath : Option String := none
  potentialRoles : Option (List String) := none
deriving DecidableEq, Repr

/-- SCALE_4_0 from constants.ts. -/
def SCALE_4_0 : List GradeScaleItem :=
  [ { grade := "A", point := 4.0 },
    { grade := "A-", point := 3.7 },
    { grade := "B+", point := 3.3 },
    { grade := "B", point := 3.0 },
    { grade := "B-", point := 2.7 },
    { grade := "C+", point := 2.3 },
    { grade := "C", point := 2.0 },
    { grade := "C-", point := 1.7 },
    { grade := "D+", point := 1.3 },
    { grade := "D", point := 1.0 },
    { grade := "F", point := 0.0 } ]

/-- SCALE_5_0 from constants.ts. -/
def SCALE_5_0 : List GradeScaleItem :=
  [ { grade := "A", point := 5.0 },
    { grade := "B", point := 4.0 },
    { grade := "C", point := 3.0 },
    { grade := "D", point := 2.0 },
    { grade := "E", point := 1.0 },
    { grade := "F", point := 0.0 } ]

/-- Scale selection; this is both the scale chosen inside getPoint
(constants.ts) and the derived activeScale value in App.tsx. -/
def activeScale (mode : CalculationMode) : List GradeScaleItem :=
  if mode = CalculationMode.Standard5 then SCALE_5_0 else SCALE_4_0

/-- getPoint from constants.ts: look the grade up in the active scale and
return its point value, or 0 when the grade is absent. -/
def getPoint (grade : String) (mode : CalculationMode) : ℚ :=
  match (activeScale mode).find? (fun s => s.grade == grade) with
  | some item => item.point
  | none => 0

/-- Model of parseFloat(x.toFixed(2)): rounding to two decimal places. -/
def round2 (q : ℚ) : ℚ := (round (q * 100) : ℤ) / 100

/-- calculateSemesterGPA from App.tsx: empty course list gives 0, otherwise
two reduce passes compute total points and total credits, and the quotient is
rounded to two decimals (0 when the credit total is 0). -/
def calculateSemesterGPA (mode : CalculationMode) (courses : List Course) : ℚ :=
  if courses.length = 0 then 0
  else
    let totalPoints := courses.foldl (fun sum c => sum + getPoint c.grade mode * c.credits) 0
    let totalCredits := courses.foldl (fun sum c => sum + c.credits) 0
    if totalCredits = 0 then 0 else round2 (totalPoints / totalCredits)

/-- The forEach loop body of the cgpa aggregate in App.tsx: one pass over the
courses of one semester updating the (totalPoints, totalCredits) accumulator. -/
def addCourseTotals (mode : CalculationMode) (acc : ℚ × ℚ) (courses : List Course) : ℚ × ℚ :=
  courses.foldl (fun a c => (a.1 + getPoint c.grade mode * c.credits, a.2 + c.credits)) acc

/-- The accumulator state of the cgpa useMemo in App.tsx after the nested
forEach loops over all semesters and courses. -/
def cgpaTotals (mode : CalculationMode) (semesters : List Semester) : ℚ × ℚ :=
  semesters.foldl (fun acc sem => addCourseTotals mode acc sem.courses) (0, 0)

/-- The cgpa useMemo value from App.tsx. -/
def cgpa (mode : CalculationMode) (semesters : List Semester) : ℚ :=
  let t := cgpaTotals mode semesters
  if t.2 = 0 then 0 else round2 (t.1 / t.2)

/-- One row of the chartData array in App.tsx. -/
structure ChartEntry where
  name : String
  semGPA : ℚ
  cgpa : ℚ
deriving DecidableEq, Repr

/-- The chartData useMemo from App.tsx: a map over the semesters threading the
cumulative (points, credits) accumulator, emitting the running CGPA rounded to
two decimals. -/
def chartDataAux (mode : CalculationMode) (acc : ℚ × ℚ) : List Semester → List ChartEntry
  | [] => []
  | sem :: rest =>
    let acc2 := addCourseTotals mode acc sem.courses
    let cumulativeGPA := if acc2.2 = 0 then 0 else acc2.1 / acc2.2
    { name := sem.name, semGPA := sem.gpa, cgpa := round2 cumulativeGPA }
      :: chartDataAux mode acc2 rest

/-- chartData from App.tsx, starting from zero cumulative totals. -/
def chartData (mode : CalculationMode) (semesters : List Semester) : List ChartEntry :=
  chartDataAux mode (0, 0) semesters

/-- The per-semester update applied inside handleUpdateCourses (App.tsx): the
semester whose id matches gets the new course list and a freshly computed gpa,
every other semester is returned unchanged. -/
def updateSem (mode : CalculationMode) (semId : String) (updatedCourses : List Course)
    (sem : Semester) : Semester :=
  if sem.id = semId then
    { sem with courses := updatedCourses, gpa := calculateSemesterGPA mode updatedCourses }
  else sem

/-- handleUpdateCourses from App.tsx: map the per-semester update over the
previous state. -/
def handleUpdateCourses (mode : CalculationMode) (semId : String)
    (updatedCourses : List Course) (prev : List Semester) : List Semester :=
  prev.map (updateSem mode semId updatedCourses)

/-- addSemester from App.tsx; `now` models Date.now(). -/
def addSemester (semesters : List Semester) (now : Nat) : List Semester :=
  semesters ++ [{ id := "sem-" ++ Nat.repr now,
                  name := "Semester " ++ Nat.repr (semesters.length + 1),
                  courses := [], gpa := 0 }]

/-- removeSemester from App.tsx. -/
def removeSemester (semesters : List Semester) (rid : String) : List Semester :=
  semesters.filter (fun s => s.id != rid)

/-- The state update performed by handleTranscriptUpload (App.tsx) once the
parsed course list is available: when it is non-empty, append a new semester
named Imported Transcript with a freshly computed gpa; otherwise the semester
state is left unchanged (only the error message changes). -/
def uploadTranscriptState (mode : CalculationMode) (now : Nat)
    (parsedCourses : List Course) (prev : List Semester) : List Semester :=
  if parsedCourses.length > 0 then
    prev ++ [{ id := "sem-import-" ++ Nat.repr now,
               name := "Imported Transcript",
               courses := parsedCourses,
               gpa := calculateSemesterGPA mode parsedCourses }]
  else prev

/-- A field assignment performed by handleChange in CourseList.tsx, whose
dynamic `[field]: value` update is modelled by one constructor per field. -/
inductive CourseField where
  | code (v : String)
  | title (v : String)
  | credits (v : ℚ)
  | grade (v : String)
deriving DecidableEq, Repr

/-- The spread-update `{...c, [field]: value}` of handleChange. -/
def setField (c : Course) : CourseField → Course
  | .code v => { c with code := v }
  | .title v => { c with title := v }
  | .credits v => { c with credits := v }
  | .grade v => { c with grade := v }

/-- handleChange from CourseList.tsx: update the field of the matching course. -/
def handleChange (courses : List Course) (cid : String) (f : CourseField) : List Course :=
  courses.map (fun c => if c.id = cid then setField c f else c)

/-- The credits value passed by the onChange of the credits input in CourseList.tsx:
`parseInt(e.target.value) || 0`. The parseInt result is modelled as an
`Option Int` (`none` for NaN); `|| 0` turns NaN into 0 (and 0 stays 0). -/
def parseIntOr0 (v : Option Int) : ℚ := ((v.getD 0 : Int) : ℚ)

/-- handleAddCourse from CourseList.tsx: append a fresh course with credits 3
and the first grade of the active scale (`scale[0].grade`; the scale passed by
App.tsx is never empty, and the empty case is totalised with ""). -/
def handleAddCourse (now : Nat) (scale : List GradeScaleItem) (courses : List Course) :
    List Course :=
  courses ++ [{ id := "new-" ++ Nat.repr now, code := "", title := "", credits := 3,
                grade := ((scale.head?).map (fun s => s.grade)).getD "" }]

/-- One element of the raw JSON array parsed from the AI response in
parseTranscriptImage (geminiService.ts). A missing field is `none`; JavaScript
falsiness of a present field is the empty string, respectively 0. -/
structure RawCourse where
  code : Option String
  title : Option String
  credits : Option ℚ
  grade : Option String
deriving DecidableEq, Repr

/-- Model of `v || d` for a possibly-missing string field. -/
def strOrDefault (v : Option String) (d : String) : String :=
  match v with
  | some s => if s = "" then d else s
  | none => d

/-- Model of `v || d` for a possibly-missing numeric field (0 is falsy). -/
def numOrDefault (v : Option ℚ) (d : ℚ) : ℚ :=
  match v with
  | some n => if n = 0 then d else n
  | none => d

/-- The mapping applied to each raw course at index `index` inside
parseTranscriptImage; `now` models Date.now(). -/
def parseCourse (now : Nat) (index : Nat) (c : RawCourse) : Course :=
  { id := "parsed-" ++ Nat.repr now ++ "-" ++ Nat.repr index,
    code := strOrDefault c.code "UNKNOWN",
    title := strOrDefault c.title "Parsed Course",
    credits := numOrDefault c.credits 3,
    grade := strOrDefault c.grade "C" }

/-- The `rawData.map((c, index) => ...)` step of parseTranscriptImage. -/
def parseTranscriptCourses (now : Nat) (rawData : List RawCourse) : List Course :=
  rawData.enum.map (fun p => parseCourse now p.1 p.2)

/-- The web field of a grounding chunk returned by the search call. -/
structure WebInfo where
  uri : String
  title : String
deriving DecidableEq, Repr

/-- One grounding chunk returned by the search call in findStudyResources. -/
structure GroundingChunk where
  web : Option WebInfo
deriving DecidableEq, Repr

/-- The forEach push loop of findStudyResources: a chunk contributes a
resource exactly when `chunk.web?.uri && chunk.web?.title` is truthy, i.e.
web is present with non-empty uri and title. `host` models the external
computation `uri => new URL(uri).hostname.replace(www-dot, empty)` on the uri. -/
def extractResources (host : String → String) (chunks : List GroundingChunk) :
    List StudyResource :=
  chunks.filterMap (fun chunk =>
    match chunk.web with
    | some w =>
      if w.uri ≠ "" ∧ w.title ≠ "" then
        some { title := w.title, uri := w.uri, source := host w.uri }
      else none
    | none => none)

/-- The deduplication filter of findStudyResources:
`resources.filter((v, i, a) => a.findIndex(t => t.uri === v.uri) === i)`,
keeping an element exactly when its index equals the index of the first
element carrying the same uri. -/
def uniqueFilter (resources : List StudyResource) : List StudyResource :=
  ((resources.enum.filter
      (fun p => resources.findIdx (fun t => t.uri == p.2.uri) = p.1)).map (fun p => p.2))

/-- Outcome of the grounded-search API call made by findStudyResources. -/
inductive SearchResponse where
  | networkError (msg : String)
  | result (chunks : Option (List GroundingChunk))
deriving Repr

/-- findStudyResources from geminiService.ts. getAiClient() throws before the
try block when the API key is missing; inside the try, a failed call is caught
and the empty list returned, missing grounding chunks give the empty list, and
otherwise the extracted resources are deduplicated by uri and the first 5 are
returned. -/
def findStudyResources (apiKey : Option String) (host : String → String)
    (resp : SearchResponse) : Except String (List StudyResource) :=
  match apiKey with
  | none => Except.error "API Key not found"
  | some _ =>
    match resp with
    | .networkError _ => Except.ok []
    | .result none => Except.ok []
    | .result (some chunks) =>
      Except.ok ((uniqueFilter (extractResources host chunks)).take 5)

/-- Outcome of the strategy-generation API call made by
generateAcademicStrategy: a network/API failure, a response with no text, a
text that fails JSON.parse, or a parsed AIAnalysisResult. -/
inductive StrategyResponse where
  | networkError (msg : String)
  | noText
  | malformed (text : String)
  | parsed (result : AIAnalysisResult)
deriving Repr

/-- The fixed fallback value returned by the catch block of
generateAcademicStrategy. -/
def fallbackAnalysis : AIAnalysisResult :=
  { summary := "Could not generate advanced strategy at this time.",
    recommendations := ["Ensure your API Key is valid."],
    projectedGPA := "N/A",
    sentiment := "neutral",
    strategicPlan := [] }

/-- generateAcademicStrategy from geminiService.ts. getAiClient() throws
before the try block when the API key is missing; inside the try, a network
failure, a missing response text (which throws "No response from AI") and a
JSON.parse failure are all caught and mapped to the fixed fallback value. -/
def generateAcademicStrategy (apiKey : Option String) (resp : StrategyResponse) :
    Except String AIAnalysisResult :=
  match apiKey with
  | none => Except.error "API Key not found"
  | some _ =>
    match resp with
    | .networkError _ => Except.ok fallbackAnalysis
    | .noText => Except.ok fallbackAnalysis
    | .malformed _ => Except.ok fallbackAnalysis
    | .parsed r => Except.ok r

/-- parseTranscriptImage from geminiService.ts. getAiClient() throws before
the try block when the API key is missing, and the catch block rethrows, so
every failure propagates; a response with no text gives the empty list, and a
parsed JSON array is mapped to courses by parseTranscriptCourses. -/
def parseTranscriptImage (apiKey : Option String) (now : Nat)
    (resp : Except String (Option (List RawCourse))) : Except String (List Course) :=
  match apiKey with
  | none => Except.error "API Key not found"
  | some _ =>
    match resp with
    | .error e => Except.error e
    | .ok none => Except.ok []
    | .ok (some rawData) => Except.ok (parseTranscriptCourses now rawData)

/-- Decimal digit list of a natural number, most significant digit first; used
below as the specification of Nat.toDigits at base 10, in order to reason
about the template-string ids generated by the code. -/
def decDigits (n : Nat) : List Char :=
  if h : n / 10 = 0 then [Nat.digitChar (n % 10)]
  else decDigits (n / 10) ++ [Nat.digitChar (n % 10)]
decreasing_by
  exact Nat.div_lt_self (Nat.pos_of_ne_zero (fun hn => h (by simp [hn]))) (by decide)

theorem toDigitsCore_eq_decDigits :
    ∀ (f n : Nat) (ds : List Char), n < f →
      Nat.toDigitsCore 10 f n ds = decDigits n ++ ds := by
  intro f
  induction f with
  | zero => exact fun n ds h => absurd h (Nat.not_lt_zero n)
  | succ f ih =>
    intro n ds h
    rw [decDigits]
    by_cases h10 : n / 10 = 0
    · simp [Nat.toDigitsCore, h10]
    · have hlt : n / 10 < f := by
        have h1 : n / 10 < n := Nat.div_lt_self (Nat.pos_of_ne_zero (fun hn => h10 (by simp [hn]))) (by decide)
        omega
      simp only [Nat.toDigitsCore, h10, if_false, dif_neg h10]
      rw [ih (n / 10) (Nat.digitChar (n % 10) :: ds) hlt]
      simp

theorem repr_eq_decDigits (n : Nat) : Nat.repr n = String.mk (decDigits n) := by
  show (Nat.toDigits 10 n).asString = String.mk (decDigits n)
  rw [Nat.toDigits, toDigitsCore_eq_decDigits (n + 1) n [] (Nat.lt_succ_self n)]
  simp [List.asString]

/-- Value of a decimal digit list, used to invert decDigits. -/
def ofDecDigits (l : List Char) : Nat :=
  l.foldl (fun acc c => acc * 10 + (c.toNat - 48)) 0

theorem ofDecDigits_append (l : List Char) (c : Char) :
    ofDecDigits (l ++ [c]) = (ofDecDigits l) * 10 + (c.toNat - 48) := by
  simp [ofDecDigits, List.foldl_append]

theorem digitChar_val : ∀ d : Nat, d < 10 → (Nat.digitChar d).toNat - 48 = d := by decide

theorem ofDecDigits_decDigits (n : Nat) : ofDecDigits (decDigits n) = n := by
  induction n using Nat.strong_induction_on with
  | _ n ih =>
    rw [decDigits]
    by_cases h10 : n / 10 = 0
    · have hn : n < 10 := by omega
      simp [h10, ofDecDigits, digitChar_val (n % 10) (Nat.mod_lt n (by decide))]
      omega
    · have h1 : n / 10 < n :=
        Nat.div_lt_self (Nat.pos_of_ne_zero (fun hn => h10 (by simp [hn]))) (by decide)
      rw [dif_neg h10, ofDecDigits_append, ih (n / 10) h1,
        digitChar_val (n % 10) (Nat.mod_lt n (by omega))]
      omega

theorem decDigits_injective : Function.Injective decDigits := by
  intro m n h
  rw [← ofDecDigits_decDigits m, ← ofDecDigits_decDigits n, h]

theorem natRepr_injective : Function.Injective Nat.repr := by
  intro m n h
  rw [repr_eq_decDigits, repr_eq_decDigits] at h
  exact decDigits_injective (congrArg String.data h)

theorem string_append_cancel_left (s t u : String) (h : s ++ t = s ++ u) : t = u := by
  have hd : s.data ++ t.data = s.data ++ u.data := by
    have := congrArg String.data h
    simpa using this
  have : t.data = u.data := List.append_cancel_left hd
  cases t; cases u; exact congrArg String.mk this

/-- Spec-side view for the CGPA claims: all recorded courses, i.e. the
concatenation of the course lists of all semesters. -/
def allCourses (semesters : List Semester) : List Course :=
  (semesters.map (fun s => s.courses)).flatten

/-- Spec-side total grade points: sum over all courses of
point(grade, mode) times credits. -/
def specTotalPoints (mode : CalculationMode) (semesters : List Semester) : ℚ :=
  ((allCourses semesters).map (fun c => getPoint c.grade mode * c.credits)).sum

/-- Spec-side total credits: sum of the credits of all courses. -/
def specTotalCredits (semesters : List Semester) : ℚ :=
  ((allCourses semesters).map (fun c => c.credits)).sum

/-- Spec-side CGPA, following the spec wording of claim C1: total grade
points divided by total credits, rounded to two decimals, and 0 when the
total credits equal 0. -/
def spec_cgpa (mode : CalculationMode) (semesters : List Semester) : ℚ :=
  if specTotalCredits semesters = 0 then 0
  else round2 (specTotalPoints mode semesters / specTotalCredits semesters)

theorem foldl_points (mode : CalculationMode) (cs : List Course) (a : ℚ) :
    cs.foldl (fun sum c => sum + getPoint c.grade mode * c.credits) a
      = a + (cs.map (fun c => getPoint c.grade mode * c.credits)).sum := by
  induction cs generalizing a with
  | nil => simp
  | cons c t ih => simp [ih, add_assoc]

theorem foldl_credits (cs : List Course) (a : ℚ) :
    cs.foldl (fun sum c => sum + c.credits) a = a + (cs.map (fun c => c.credits)).sum := by
  induction cs generalizing a with
  | nil => simp
  | cons c t ih => simp [ih, add_assoc]

theorem addCourseTotals_eq (mode : CalculationMode) (acc : ℚ × ℚ) (cs : List Course) :
    addCourseTotals mode acc cs
      = (acc.1 + (cs.map (fun c => getPoint c.grade mode * c.credits)).sum,
         acc.2 + (cs.map (fun c => c.credits)).sum) := by
  induction cs generalizing acc with
  | nil => simp [addCourseTotals]
  | cons c t ih => simp [addCourseTotals, List.foldl_cons] at ih ⊢; rw [ih]; simp [add_assoc]

theorem cgpaTotals_foldl_eq (mode : CalculationMode) (sems : List Semester) (acc : ℚ × ℚ) :
    sems.foldl (fun acc sem => addCourseTotals mode acc sem.courses) acc
      = (acc.1 + specTotalPoints mode sems, acc.2 + specTotalCredits sems) := by
  induction sems generalizing acc with
  | nil => simp [specTotalPoints, specTotalCredits, allCourses]
  | cons s t ih =>
    rw [List.foldl_cons, ih, addCourseTotals_eq]
    simp [specTotalPoints, specTotalCredits, allCourses, add_assoc]

theorem cgpaTotals_eq (mode : CalculationMode) (sems : List Semester) :
    cgpaTotals mode sems = (specTotalPoints mode sems, specTotalCredits sems) := by
  rw [cgpaTotals, cgpaTotals_foldl_eq]; simp

/-- Claim C1: for every list of semesters and every calculation mode, the
computed overall CGPA equals the sum over all courses of point(grade, mode)
times credits, divided by the sum of all credits, rounded to two decimals,
and it equals 0 when the total credits equal 0. -/
theorem cgpa_eq_spec_cgpa (mode : CalculationMode) (semesters : List Semester) :
    cgpa mode semesters = spec_cgpa mode semesters := by
  rw [cgpa, spec_cgpa, cgpaTotals_eq]

/-- Claim C2: for every grade string not present in the active scale and for
every calculation mode, the grade-point lookup getPoint returns 0. -/
theorem getPoint_unknown_grade (grade : String) (mode : CalculationMode)
    (h : ∀ item ∈ activeScale mode, item.grade ≠ grade) : getPoint grade mode = 0 := by
  have hnone : (activeScale mode).find? (fun s => s.grade == grade) = none :=
    List.find?_eq_none.mpr (fun item hm => by simpa using h item hm)
  rw [getPoint, hnone]

/-- Witness for claim C2 at the concrete unrecognized grade "Z" on the 4.0
scale. -/
theorem getPoint_unknown_grade_witness :
    (∀ item ∈ activeScale CalculationMode.Standard4, item.grade ≠ "Z")
      ∧ getPoint "Z" CalculationMode.Standard4 = 0 :=
  ⟨by decide, getPoint_unknown_grade "Z" CalculationMode.Standard4 (by decide)⟩

/-- Claim C3: the total credits computed for the CGPA are identical under the
4.0 mode and the 5.0 mode; the credit total is a function of the courses only,
not of the mode. -/
theorem cgpaTotals_credits_mode_independent (semesters : List Semester) :
    (cgpaTotals CalculationMode.Standard4 semesters).2
      = (cgpaTotals CalculationMode.Standard5 semesters).2 := by
  rw [cgpaTotals_eq, cgpaTotals_eq]

/-- Claim C7: for every state containing exactly one semester and every mode,
the overall CGPA computed by the cgpa aggregate equals the GPA of that semester as
computed by calculateSemesterGPA on its course list. -/
theorem cgpa_singleton_eq_semesterGPA (mode : CalculationMode) (sem : Semester) :
    cgpa mode [sem] = calculateSemesterGPA mode sem.courses := by
  rw [cgpa, cgpaTotals_eq, calculateSemesterGPA]
  by_cases hc : sem.courses = []
  · simp [hc, specTotalCredits, allCourses]
  · have hlen : sem.courses.length ≠ 0 := by simpa using hc
    rw [if_neg hlen, foldl_points, foldl_credits]
    simp [specTotalCredits, specTotalPoints, allCourses]

/-- The cached-GPA invariant: the gpa field of every semester equals
calculateSemesterGPA of its course list under the current mode. -/
def GpaCached (mode : CalculationMode) (semesters : List Semester) : Prop :=
  ∀ sem ∈ semesters, sem.gpa = calculateSemesterGPA mode sem.courses

/-- The initial semester state of the useState call in App.tsx. -/
def initSemesters : List Semester :=
  [{ id := "sem-1", name := "Semester 1", courses := [], gpa := 0 }]

/-- Claim C4: handleUpdateCourses recomputes the matching semester gpa field, its cached
gpa to calculateSemesterGPA of the new course list while keeping its id and
name, and the cached-GPA invariant holds after every state-updating operation
that touches courses (handleUpdateCourses, addSemester, the transcript-upload
state update, removeSemester). -/
theorem gpaCached_preserved (mode : CalculationMode) (semId : String)
    (cs : List Course) (prev : List Semester) (h : GpaCached mode prev) :
    (∀ sem ∈ prev,
        (updateSem mode semId cs sem).id = sem.id
        ∧ (updateSem mode semId cs sem).name = sem.name
        ∧ (sem.id = semId →
            (updateSem mode semId cs sem).courses = cs
            ∧ (updateSem mode semId cs sem).gpa = calculateSemesterGPA mode cs))
    ∧ GpaCached mode (handleUpdateCourses mode semId cs prev)
    ∧ (∀ now, GpaCached mode (addSemester prev now))
    ∧ (∀ now parsed, GpaCached mode (uploadTranscriptState mode now parsed prev))
    ∧ (∀ rid, GpaCached mode (removeSemester prev rid)) := by
  refine ⟨?_, ?_, ?_, ?_, ?_⟩
  · intro sem _
    by_cases hid : sem.id = semId <;> simp [updateSem, hid]
  · intro sem2 hm
    obtain ⟨sem, hsem, rfl⟩ := List.mem_map.mp hm
    by_cases hid : sem.id = semId
    · simp [updateSem, hid]
    · simpa [updateSem, hid] using h sem hsem
  · intro now sem hm
    rcases List.mem_append.mp hm with hold | hnew
    · exact h sem hold
    · rw [List.mem_singleton] at hnew
      subst hnew
      simp [calculateSemesterGPA]
  · intro now parsed sem hm
    rw [uploadTranscriptState] at hm
    by_cases hp : parsed.length > 0
    · rw [if_pos hp] at hm
      rcases List.mem_append.mp hm with hold | hnew
      · exact h sem hold
      · rw [List.mem_singleton] at hnew
        subst hnew
        rfl
    · rw [if_neg hp] at hm
      exact h sem hm
  · intro rid sem hm
    exact h sem (List.mem_of_mem_filter hm)

/-- Witness for claim C4 at the initial state of App.tsx, updating the course
list of semester sem-1 to the empty list under the 4.0 mode. -/
theorem gpaCached_preserved_witness :
    GpaCached CalculationMode.Standard4 initSemesters
      ∧ GpaCached CalculationMode.Standard4
          (handleUpdateCourses CalculationMode.Standard4 "sem-1" [] initSemesters) := by
  have hinv : GpaCached CalculationMode.Standard4 initSemesters := by
    intro sem hm
    rw [initSemesters, List.mem_singleton] at hm
    subst hm
    rfl
  exact ⟨hinv, (gpaCached_preserved CalculationMode.Standard4 "sem-1" [] initSemesters hinv).2.1⟩

theorem chartDataAux_getLast (mode : CalculationMode) :
    ∀ (sems : List Semester) (acc : ℚ × ℚ), sems ≠ [] →
      ∃ e : ChartEntry,
        (chartDataAux mode acc sems).getLast? = some e
        ∧ e.cgpa =
            round2 (let t := sems.foldl (fun a s => addCourseTotals mode a s.courses) acc
                    if t.2 = 0 then 0 else t.1 / t.2) := by
  intro sems
  induction sems with
  | nil => intro acc h; exact absurd rfl h
  | cons s rest ih =>
    intro acc _
    by_cases hr : rest = []
    · subst hr
      exact ⟨_, rfl, rfl⟩
    · obtain ⟨e, he, hc⟩ := ih (addCourseTotals mode acc s.courses) hr
      refine ⟨e, ?_, ?_⟩
      · rw [chartDataAux]
        obtain ⟨b, rest2, rfl⟩ := List.exists_cons_of_ne_nil hr
        rw [chartDataAux] at he ⊢
        simpa using he
      · simpa using hc

/-- Claim C10: for every non-empty list of semesters and every mode, the cgpa
value of the last entry of chartData equals the overall CGPA computed by the
cgpa aggregate. -/
theorem chartData_last_cgpa (mode : CalculationMode) (semesters : List Semester)
    (h : semesters ≠ []) :
    ∃ e : ChartEntry,
      (chartData mode semesters).getLast? = some e ∧ e.cgpa = cgpa mode semesters := by
  obtain ⟨e, he, hc⟩ := chartDataAux_getLast mode semesters (0, 0) h
  refine ⟨e, he, ?_⟩
  rw [hc, cgpa]
  show round2 (if (cgpaTotals mode semesters).2 = 0 then 0
               else (cgpaTotals mode semesters).1 / (cgpaTotals mode semesters).2) = _
  by_cases ht : (cgpaTotals mode semesters).2 = 0
  · simp [ht, round2]
  · simp [ht]

/-- Witness for claim C10 at the initial one-semester state under the 4.0
mode. -/
theorem chartData_last_cgpa_witness :
    initSemesters ≠ []
      ∧ ∃ e : ChartEntry,
          (chartData CalculationMode.Standard4 initSemesters).getLast? = some e
          ∧ e.cgpa = cgpa CalculationMode.Standard4 initSemesters :=
  ⟨by decide, chartData_last_cgpa CalculationMode.Standard4 initSemesters (by decide)⟩

/-- Counterexample to claim C6 as stated: with the credential missing, both
generateAcademicStrategy and findStudyResources throw (the getAiClient error is
raised before the try block), rather than returning the fallback value or the
empty list. -/
theorem strategy_missing_key_throws :
    generateAcademicStrategy none StrategyResponse.noText
        = Except.error "API Key not found"
      ∧ findStudyResources none (fun u => u) (SearchResponse.result none)
        = Except.error "API Key not found" :=
  ⟨rfl, rfl⟩

/-- Claim C6 as amended: with an API key present, every failure inside the try
block (network failure, missing response text, malformed JSON) is caught and
surfaced without retry, generateAcademicStrategy returning the fixed fallback
AIAnalysisResult (summary "Could not generate advanced strategy at this
time.", sentiment "neutral", empty strategicPlan) and findStudyResources
returning the empty list; with the credential missing, both functions throw
instead. -/
theorem aiService_error_handling (k : String) (host : String → String) :
    (∀ msg, generateAcademicStrategy (some k) (StrategyResponse.networkError msg)
        = Except.ok fallbackAnalysis)
    ∧ generateAcademicStrategy (some k) StrategyResponse.noText = Except.ok fallbackAnalysis
    ∧ (∀ t, generateAcademicStrategy (some k) (StrategyResponse.malformed t)
        = Except.ok fallbackAnalysis)
    ∧ fallbackAnalysis.summary = "Could not generate advanced strategy at this time."
    ∧ fallbackAnalysis.sentiment = "neutral"
    ∧ fallbackAnalysis.strategicPlan = []
    ∧ (∀ msg, findStudyResources (some k) host (SearchResponse.networkError msg)
        = Except.ok [])
    ∧ generateAcademicStrategy none StrategyResponse.noText
        = Except.error "API Key not found"
    ∧ findStudyResources none host (SearchResponse.result none)
        = Except.error "API Key not found" :=
  ⟨fun _ => rfl, rfl, fun _ => rfl, rfl, rfl, rfl, fun _ => rfl, rfl, rfl⟩

/-- Counterexample to claim C5 as stated: a transcript parse whose JSON array
carries a negative credits value (-2) produces a course with negative credits;
the `c.credits || 3` default only replaces falsy (0 or missing) values. -/
theorem parseTranscript_negative_credits :
    ∃ c ∈ parseTranscriptCourses 0
        [{ code := some "MTH101", title := some "Algebra",
           credits := some (-2), grade := some "A" }],
      c.credits < 0 := by
  refine ⟨parseCourse 0 0
      { code := some "MTH101", title := some "Algebra",
        credits := some (-2), grade := some "A" }, ?_, by norm_num [parseCourse, numOrDefault]⟩
  simp [parseTranscriptCourses]

/-- Claim C5 as amended: course creation (handleAddCourse) always produces
non-negative credits (the fixed default 3), and the editing and parsing
operations preserve the credits ≥ 0 invariant provided the external numeric
input (the typed credits value / the parsed credits value) is non-negative; a
negative external value flows through unchanged, so the unconditional
invariant fails. -/
theorem credits_nonneg_preserved (courses : List Course) (cid : String) (f : CourseField)
    (v : Option Int) (now : Nat) (scale : List GradeScaleItem) (raw : List RawCourse) :
    ((∀ c ∈ courses, 0 ≤ c.credits) → (∀ q, f = CourseField.credits q → 0 ≤ q) →
        ∀ c ∈ handleChange courses cid f, 0 ≤ c.credits)
    ∧ ((∀ c ∈ courses, 0 ≤ c.credits) → (∀ n, v = some n → 0 ≤ n) →
        ∀ c ∈ handleChange courses cid (CourseField.credits (parseIntOr0 v)), 0 ≤ c.credits)
    ∧ ((∀ c ∈ courses, 0 ≤ c.credits) →
        ∀ c ∈ handleAddCourse now scale courses, 0 ≤ c.credits)
    ∧ ((∀ r ∈ raw, ∀ q, r.credits = some q → 0 ≤ q) →
        ∀ c ∈ parseTranscriptCourses now raw, 0 ≤ c.credits) := by
  have hchange : ∀ (g : CourseField), (∀ c ∈ courses, 0 ≤ c.credits) →
      (∀ q, g = CourseField.credits q → 0 ≤ q) →
      ∀ c ∈ handleChange courses cid g, 0 ≤ c.credits := by
    intro g hc hg c hm
    obtain ⟨c0, hc0, rfl⟩ := List.mem_map.mp hm
    by_cases hid : c0.id = cid
    · rw [if_pos hid]
      cases g with
      | code w => simpa [setField] using hc c0 hc0
      | title w => simpa [setField] using hc c0 hc0
      | grade w => simpa [setField] using hc c0 hc0
      | credits q => simpa [setField] using hg q rfl
    · rw [if_neg hid]
      exact hc c0 hc0
  refine ⟨hchange f, ?_, ?_, ?_⟩
  · intro hc hv
    refine hchange (CourseField.credits (parseIntOr0 v)) hc ?_
    intro q hq
    cases hq
    cases v with
    | none => norm_num [parseIntOr0]
    | some n =>
      have := hv n rfl
      simp only [parseIntOr0, Option.getD]
      exact_mod_cast this
  · intro hc c hm
    rcases List.mem_append.mp hm with hold | hnew
    · exact hc c hold
    · rw [List.mem_singleton] at hnew
      subst hnew
      norm_num
  · intro hr c hm
    obtain ⟨p, hp, rfl⟩ := List.mem_map.mp hm
    have hmem : p.2 ∈ raw := by
      have h2 := List.mem_enum_iff_getElem?.mp hp
      exact List.getElem?_mem h2
    show 0 ≤ numOrDefault p.2.credits 3
    cases hcr : p.2.credits with
    | none => norm_num [numOrDefault]
    | some q =>
      by_cases hq : q = 0
      · simp [numOrDefault, hq]
      · simpa [numOrDefault, hq] using hr p.2 hmem q hcr

/-- Witness for claim C5 at concrete non-negative inputs: an edit setting
credits to 1 on the empty course list, and a parse of one raw course with
credits 2. -/
theorem credits_nonneg_preserved_witness :
    (∀ c ∈ handleChange [] "x" (CourseField.credits 1), 0 ≤ c.credits)
      ∧ (∀ c ∈ parseTranscriptCourses 3
            [{ code := none, title := none, credits := some 2, grade := none }],
          0 ≤ c.credits) := by
  have h := credits_nonneg_preserved [] "x" (CourseField.credits 1) (some 1) 3 SCALE_4_0
      [{ code := none, title := none, credits := some 2, grade := none }]
  refine ⟨h.1 (by simp) ?_, h.2.2.2 ?_⟩
  · intro q hq
    cases hq
    norm_num
  · intro r hr q hq
    rw [List.mem_singleton] at hr
    subst hr
    simp only [Option.some.injEq] at hq
    subst hq
    norm_num

theorem parseCourse_id_inj (now : Nat) (i j : Nat) (c d : RawCourse)
    (h : (parseCourse now i c).id = (parseCourse now j d).id) : i = j := by
  have h2 : Nat.repr i = Nat.repr j :=
    string_append_cancel_left ("parsed-" ++ Nat.repr now ++ "-") _ _ h
  exact natRepr_injective h2

theorem mem_enumFrom_fst_le {α : Type} :
    ∀ (l : List α) (n : Nat) (p : Nat × α), p ∈ l.enumFrom n → n ≤ p.1 := by
  intro l
  induction l with
  | nil => simp [List.enumFrom]
  | cons a t ih =>
    intro n p hp
    rw [List.enumFrom_cons] at hp
    rcases List.mem_cons.mp hp with rfl | hmem
    · exact Nat.le_refl n
    · exact Nat.le_of_succ_le (ih (n + 1) p hmem)

theorem enumFrom_pairwise_fst_lt {α : Type} :
    ∀ (l : List α) (n : Nat), (l.enumFrom n).Pairwise (fun p q => p.1 < q.1) := by
  intro l
  induction l with
  | nil => simp [List.enumFrom]
  | cons a t ih =>
    intro n
    rw [List.enumFrom_cons, List.pairwise_cons]
    exact ⟨fun q hq => Nat.lt_of_succ_le (mem_enumFrom_fst_le t (n + 1) q hq), ih (n + 1)⟩

theorem enum_pairwise_fst_lt {α : Type} (l : List α) :
    l.enum.Pairwise (fun p q => p.1 < q.1) :=
  enumFrom_pairwise_fst_lt l 0

/-- Claim C9: for every parsed JSON array, the courses produced by
parseTranscriptImage have their missing or falsy fields replaced by defaults
(code "UNKNOWN", title "Parsed Course", credits 3 with a parsed 0 also
replaced, grade "C"), non-falsy fields preserved, and the generated course ids
are pairwise distinct within one call. -/
theorem parseTranscript_fields_and_ids (now : Nat) (rawData : List RawCourse) :
    (parseTranscriptCourses now rawData).length = rawData.length
    ∧ (∀ (i : Nat) (r : RawCourse), rawData[i]? = some r →
        ∃ c : Course, (parseTranscriptCourses now rawData)[i]? = some c
          ∧ ((r.code = none ∨ r.code = some "") → c.code = "UNKNOWN")
          ∧ (∀ s, r.code = some s → s ≠ "" → c.code = s)
          ∧ ((r.title = none ∨ r.title = some "") → c.title = "Parsed Course")
          ∧ (∀ s, r.title = some s → s ≠ "" → c.title = s)
          ∧ ((r.credits = none ∨ r.credits = some 0) → c.credits = 3)
          ∧ (∀ q, r.credits = some q → q ≠ 0 → c.credits = q)
          ∧ ((r.grade = none ∨ r.grade = some "") → c.grade = "C")
          ∧ (∀ s, r.grade = some s → s ≠ "" → c.grade = s))
    ∧ (parseTranscriptCourses now rawData).Pairwise (fun a b => a.id ≠ b.id) := by
  refine ⟨by simp [parseTranscriptCourses], ?_, ?_⟩
  · intro i r hr
    refine ⟨parseCourse now i r, ?_, ?_, ?_, ?_, ?_, ?_, ?_, ?_, ?_⟩
    · simp [parseTranscriptCourses, List.getElem?_enum, hr]
    · rintro (hc | hc) <;> simp [parseCourse, strOrDefault, hc]
    · intro s hs hne
      simp [parseCourse, strOrDefault, hs, hne]
    · rintro (hc | hc) <;> simp [parseCourse, strOrDefault, hc]
    · intro s hs hne
      simp [parseCourse, strOrDefault, hs, hne]
    · rintro (hc | hc) <;> simp [parseCourse, numOrDefault, hc]
    · intro q hq hne
      simp [parseCourse, numOrDefault, hq, hne]
    · rintro (hc | hc) <;> simp [parseCourse, strOrDefault, hc]
    · intro s hs hne
      simp [parseCourse, strOrDefault, hs, hne]
  · rw [parseTranscriptCourses, List.pairwise_map]
    refine (enum_pairwise_fst_lt rawData).imp_of_mem ?_
    intro p q _ _ hlt heq
    exact absurd (parseCourse_id_inj now p.1 q.1 p.2 q.2 heq) (Nat.ne_of_lt hlt)

/-- Witness for claim C9 at a concrete raw course whose fields are all falsy
(missing code, empty title, credits 0, missing grade). -/
theorem parseTranscript_fields_and_ids_witness :
    ∃ c : Course,
      (parseTranscriptCourses 7
          [{ code := none, title := some "", credits := some 0, grade := none }])[0]?
        = some c
      ∧ c.code = "UNKNOWN" ∧ c.title = "Parsed Course" ∧ c.credits = 3 ∧ c.grade = "C" := by
  obtain ⟨c, hc, h1, -, h2, -, h3, -, h4, -⟩ :=
    (parseTranscript_fields_and_ids 7
        [{ code := none, title := some "", credits := some 0, grade := none }]).2.1 0
      { code := none, title := some "", credits := some 0, grade := none } rfl
  exact ⟨c, hc, h1 (Or.inl rfl), h2 (Or.inr rfl), h3 (Or.inr rfl), h4 (Or.inl rfl)⟩

/-- Index of the first resource carrying uri `u`, i.e. the value of the
`a.findIndex(t => t.uri === v.uri)` callback of the deduplication filter. -/
def firstUriIdx (l : List StudyResource) (u : String) : Nat :=
  l.findIdx (fun t => t.uri == u)

theorem uniqueFilter_pairwise (l : List StudyResource) :
    (uniqueFilter l).Pairwise
      (fun a b => firstUriIdx l a.uri < firstUriIdx l b.uri) := by
  rw [uniqueFilter, List.pairwise_map]
  have hpw : (l.enum.filter
      (fun p => l.findIdx (fun t => t.uri == p.2.uri) = p.1)).Pairwise
        (fun p q => p.1 < q.1) :=
    List.Pairwise.sublist (List.filter_sublist _) (enum_pairwise_fst_lt l)
  refine hpw.imp_of_mem ?_
  intro p q hp hq hlt
  have hp3 : l.findIdx (fun t => t.uri == p.2.uri) = p.1 :=
    of_decide_eq_true (List.mem_filter.mp hp).2
  have hq3 : l.findIdx (fun t => t.uri == q.2.uri) = q.1 :=
    of_decide_eq_true (List.mem_filter.mp hq).2
  rw [firstUriIdx, firstUriIdx, hp3, hq3]
  exact hlt

/-- Claim C8 as amended: for every grounding-chunk list, findStudyResources
(with the key present and a successful call) returns at most 5 resources,
their uris are pairwise distinct, and they appear in order of first occurrence
of each uri among the chunks that contribute a resource (web present with
non-empty uri and title). -/
theorem findStudyResources_dedup_order (host : String → String)
    (chunks : List GroundingChunk) (k : String) :
    ∃ rs : List StudyResource,
      findStudyResources (some k) host (SearchResponse.result (some chunks)) = Except.ok rs
      ∧ rs.length ≤ 5
      ∧ (rs.map (fun r => r.uri)).Pairwise
          (fun u v => firstUriIdx (extractResources host chunks) u
            < firstUriIdx (extractResources host chunks) v)
      ∧ (rs.map (fun r => r.uri)).Nodup := by
  refine ⟨(uniqueFilter (extractResources host chunks)).take 5, rfl, ?_, ?_, ?_⟩
  · simp only [List.length_take]
    omega
  · rw [List.pairwise_map]
    exact List.Pairwise.sublist (List.take_sublist 5 _)
      (uniqueFilter_pairwise (extractResources host chunks))
  · have hpw : ((((uniqueFilter (extractResources host chunks)).take 5).map
        (fun r => r.uri)).Pairwise
          (fun u v => firstUriIdx (extractResources host chunks) u
            < firstUriIdx (extractResources host chunks) v)) := by
      rw [List.pairwise_map]
      exact List.Pairwise.sublist (List.take_sublist 5 _)
        (uniqueFilter_pairwise (extractResources host chunks))
    exact hpw.imp (fun hlt heq => absurd (heq ▸ hlt) (lt_irrefl _))

/-- Index of the first chunk whose web uri equals `u`, counting every chunk of
the input list (also those without a usable title). -/
def firstChunkUriIdx (chunks : List GroundingChunk) (u : String) : Nat :=
  chunks.findIdx (fun c =>
    match c.web with
    | some w => w.uri == u
    | none => false)

/-- Concrete chunk list refuting the input-order reading of claim C8: uri "a"
first occurs in a chunk whose title is empty (which contributes nothing). -/
def cexChunks : List GroundingChunk :=
  [{ web := some { uri := "a", title := "" } },
   { web := some { uri := "b", title := "T" } },
   { web := some { uri := "a", title := "T2" } }]

/-- Counterexample to claim C8 as stated: on cexChunks the returned resources
are ordered "b" then "a", although uri "a" first occurs before uri "b" in the
input chunks; the chunk with uri "a" and empty title is skipped by the
truthiness check, so the output follows first occurrence among contributing
chunks only. -/
theorem resources_not_in_input_order :
    ∃ rs : List StudyResource,
      findStudyResources (some "k") (fun u => u) (SearchResponse.result (some cexChunks))
        = Except.ok rs
      ∧ rs.map (fun r => r.uri) = ["b", "a"]
      ∧ firstChunkUriIdx cexChunks "a" < firstChunkUriIdx cexChunks "b" :=
  ⟨_, rfl, by decide, by decide⟩
